import Mathlib

/-!
A verification development for the convctl universal file converter
(src/convctl/cli.py).  The format router (CONVERTERS table, find_chain,
dispatch, convert_file), the CLI entry (cli_mode), the PDF-operations menu
loop, and the PDF utilities (merge_pdfs, split_pdf, compress_pdf,
rotate_pdf, watermark_pdf) are embedded shallowly.  External collaborators
(LibreOffice, pypdf, reportlab, FFmpeg, ...) perform the byte-level work in
the source; here their outcome is an oracle parameter, while every decision
the Python code itself makes (extension parsing, normalization, table
lookup, chaining, temp-file naming and cleanup, error catching, exit codes)
is translated directly from the source.
-/

namespace Convctl

/-! ## Python string/path primitives -/

/-- Python str.lower applied per character (ASCII, as the CLI uses it). -/
def lowerL (l : List Char) : List Char := l.map Char.toLower

def upperL (l : List Char) : List Char := l.map Char.toUpper

def lowerStr (s : String) : String := String.mk (lowerL s.toList)

def upperStr (s : String) : String := String.mk (upperL s.toList)

/-- Python str.lstrip with argument "." : drop every leading dot. -/
def lstripDotsL (l : List Char) : List Char := l.dropWhile (fun c => c == '.')

/-- Characters of the last path component (text after the last slash). -/
def afterLastSlash (l : List Char) : List Char :=
  l.foldl (fun acc c => if c = '/' then [] else acc ++ [c]) []

/-- pathlib suffix of a file name: the part from the last dot, provided that
dot is neither the first nor the last character of the name. -/
def pySuffixAux (name : List Char) : List Char :=
  let aft := name.reverse.takeWhile (fun c => c != '.')
  if 0 < aft.length ∧ aft.length + 1 < name.length then '.' :: aft.reverse else []

/-- pathlib Path(p).suffix. -/
def pySuffixL (p : List Char) : List Char := pySuffixAux (afterLastSlash p)

/-- pathlib Path(p).with_suffix(sfx): replace the suffix of the last
component (append when there is none). -/
def pyWithSuffix (p : String) (sfx : String) : String :=
  let pl := p.toList
  let name := afterLastSlash pl
  let dir := pl.take (pl.length - name.length)
  let old := pySuffixAux name
  let newName :=
    if old.isEmpty then name ++ sfx.toList
    else name.take (name.length - old.length) ++ sfx.toList
  String.mk (dir ++ newName)

/-- The extension as convert_file computes it: Path(p).suffix[1:].lower(). -/
def extL (p : List Char) : List Char := lowerL ((pySuffixL p).drop 1)

def extRaw (p : String) : String := String.mk (extL p.toList)

/-- The jpeg-to-jpg normalization the router applies before lookups. -/
def jpegToJpg (s : String) : String := if s = "jpeg" then "jpg" else s

/-- src_norm / dst_norm in convert_file: normalized extension of a path. -/
def extNorm (p : String) : String := jpegToJpg (extRaw p)

/-! ## Handlers and the CONVERTERS table -/

/-- The handler functions registered in CONVERTERS, by identity.  The three
pdf-to-images entries are the three distinct lambdas of the source. -/
inductive Handler where
  | convert_pdf_to_docx
  | convert_docx_to_pdf
  | convert_doc_to_pdf
  | txt_to_pdf
  | md_to_pdf
  | image_to_pdf
  | pdf_to_images_png
  | pdf_to_images_jpg
  | pdf_to_images_jpeg
  | image_convert
  | media_convert
  deriving DecidableEq, Repr

/-- Python exception values as raised by the source, with their message. -/
inductive PyErr where
  | runtimeError (msg : String)
  | valueError (msg : String)
  | fileNotFoundError (msg : String)
  deriving DecidableEq, Repr

/-- str(e): the human-readable message of an exception. -/
def PyErr.text : PyErr → String
  | .runtimeError m => m
  | .valueError m => m
  | .fileNotFoundError m => m

instance {α β : Type} [DecidableEq α] [DecidableEq β] : DecidableEq (Except α β) :=
  fun a b =>
    match a, b with
    | .ok x, .ok y =>
      if h : x = y then isTrue (by rw [h]) else isFalse (fun hh => h (Except.ok.inj hh))
    | .error x, .error y =>
      if h : x = y then isTrue (by rw [h]) else isFalse (fun hh => h (Except.error.inj hh))
    | .ok _, .error _ => isFalse (fun hh => Except.noConfusion hh)
    | .error _, .ok _ => isFalse (fun hh => Except.noConfusion hh)

abbrev ConvMap := List ((String × String) × Handler)

/-- The module-level CONVERTERS dict, in source order. -/
def CONVERTERS : ConvMap :=
  [(("pdf", "docx"), .convert_pdf_to_docx),
   (("docx", "pdf"), .convert_docx_to_pdf),
   (("doc", "pdf"), .convert_doc_to_pdf),
   (("txt", "pdf"), .txt_to_pdf),
   (("md", "pdf"), .md_to_pdf),
   (("png", "pdf"), .image_to_pdf),
   (("jpg", "pdf"), .image_to_pdf),
   (("jpeg", "pdf"), .image_to_pdf),
   (("bmp", "pdf"), .image_to_pdf),
   (("webp", "pdf"), .image_to_pdf),
   (("pdf", "png"), .pdf_to_images_png),
   (("pdf", "jpg"), .pdf_to_images_jpg),
   (("pdf", "jpeg"), .pdf_to_images_jpeg),
   (("png", "jpg"), .image_convert),
   (("png", "jpeg"), .image_convert),
   (("jpg", "png"), .image_convert),
   (("jpeg", "png"), .image_convert),
   (("bmp", "png"), .image_convert),
   (("webp", "png"), .image_convert),
   (("mp4", "mp3"), .media_convert),
   (("wav", "mp3"), .media_convert),
   (("mp4", "wav"), .media_convert)]

/-- CONVERTERS[key] (the keys are pairwise distinct, so first match is the
dict lookup). -/
def lookupKey (m : ConvMap) (k : String × String) : Option Handler :=
  (m.find? (fun e => decide (e.1 = k))).map (fun e => e.2)

/-- Python: key in CONVERTERS. -/
def hasKey (m : ConvMap) (k : String × String) : Bool :=
  (lookupKey m k).isSome

/-! ## The format router -/

/-- Outcome of one handler invocation: none is success, some e is the raised
exception.  This is the only abstraction of the external tools. -/
abbrev Oracle := Handler → String → String → Option PyErr

/-- Observable file-system actions of the router itself: a handler invoked
on an input and output path, and a safe_remove of a path. -/
inductive Ev where
  | call (h : Handler) (inp out : String)
  | remove (p : String)
  deriving DecidableEq, Repr

structure DispatchOut where
  events : List Ev
  result : Except PyErr Unit
  deriving Repr

/-- The normalization dispatch applies to each format argument:
lower(), lstrip("."), then jpeg to jpg. -/
def dispatch_norm (s : String) : String :=
  jpegToJpg (String.mk (lstripDotsL (lowerL s.toList)))

/-- dispatch(src, dst, inp, out): normalize both formats, call the handler
registered for the pair, or raise ValueError when there is none. -/
def dispatchWith (m : ConvMap) (o : Oracle) (src dst inp out : String) : DispatchOut :=
  let s := dispatch_norm src
  let d := dispatch_norm dst
  match lookupKey m (s, d) with
  | some h =>
      { events := [Ev.call h inp out],
        result := match o h inp out with
                  | none => Except.ok ()
                  | some e => Except.error e }
  | none =>
      { events := [],
        result := Except.error (.valueError ("No handler for " ++ s ++ " -> " ++ d)) }

/-- The loop body of find_chain over the remaining intermediates. -/
def findChainGo (m : ConvMap) (src dst : String) :
    List String → Option (List (String × String))
  | [] => none
  | mid :: rest =>
    let src_mid := hasKey m (src, mid) || (decide (src = "jpeg") && decide (mid = "jpg"))
    let mid_dst := hasKey m (mid, dst) || (decide (mid = "jpg") && decide (dst = "jpeg"))
    if src_mid && mid_dst then
      let asrc := if src = "jpeg" then "jpg" else src
      let amid := if mid = "jpeg" then "jpg" else mid
      let adst := if dst = "jpeg" then "jpg" else dst
      some [(asrc, amid), (amid, adst)]
    else findChainGo m src dst rest

/-- find_chain(src, dst): the fixed intermediate list is pdf, png, jpg. -/
def find_chainWith (m : ConvMap) (src dst : String) : Option (List (String × String)) :=
  findChainGo m src dst ["pdf", "png", "jpg"]

/-- The temporary path of chain step i:
Path(inp).with_suffix(".tmp_" + str(i) + "." + to_fmt). -/
def tempName (inp : String) (i : Nat) (fmt : String) : String :=
  pyWithSuffix inp (".tmp_" ++ toString i ++ "." ++ fmt)

/-- The chain loop of convert_file: each non-final step writes to the
deterministic temp path (recorded in the temp list before dispatching); the
final step writes to the real output.  Returns (outcome, events, temps). -/
def runChainGo (m : ConvMap) (o : Oracle) (inp out : String) :
    List (String × String) → Nat → String → List String →
    Except PyErr Unit × List Ev × List String
  | [], _, _, temps => (Except.ok (), [], temps)
  | (f, t) :: rest, i, cur, temps =>
    let currentOutput := if rest.isEmpty then out else tempName inp i t
    let temps1 := if rest.isEmpty then temps else temps ++ [currentOutput]
    let d := dispatchWith m o f t cur currentOutput
    match d.result with
    | Except.error e => (Except.error e, d.events, temps1)
    | Except.ok _ =>
      let rec1 := runChainGo m o inp out rest (i + 1) currentOutput temps1
      (rec1.1, d.events ++ rec1.2.1, rec1.2.2)

/-- The body of convert_file inside its outer try: direct dispatch when the
normalized pair is registered, else the chain (temps safe_removed on both
the success and the exception path), else the unsupported-conversion
ValueError naming the raw extensions. -/
def convert_fileBody (m : ConvMap) (o : Oracle) (inp out : String) :
    List Ev × Except PyErr Unit :=
  let src := extRaw inp
  let dst := extRaw out
  let src_norm := jpegToJpg src
  let dst_norm := jpegToJpg dst
  if hasKey m (src_norm, dst_norm) then
    let d := dispatchWith m o src dst inp out
    (d.events, d.result)
  else
    match find_chainWith m src_norm dst_norm with
    | some chain =>
      let r := runChainGo m o inp out chain 0 inp []
      (r.2.1 ++ r.2.2.map Ev.remove, r.1)
    | none =>
      ([], Except.error (.valueError ("Unsupported conversion: " ++ src ++ " -> " ++ dst)))

structure ConvertOut where
  ok : Bool
  events : List Ev
  errMsg : Option String
  deriving DecidableEq, Repr

/-- convert_file(inp, out): the outer try converts any exception of the body
into a printed message and a False return value. -/
def convert_fileWith (m : ConvMap) (o : Oracle) (inp out : String) : ConvertOut :=
  let b := convert_fileBody m o inp out
  match b.2 with
  | Except.ok _ => ⟨true, b.1, none⟩
  | Except.error e => ⟨false, b.1, some e.text⟩

/-- The handlers invoked, in order, as recorded in an event list. -/
def callHandlers (evs : List Ev) : List Handler :=
  evs.filterMap (fun e => match e with | .call h _ _ => some h | .remove _ => none)

/-- Stated from the spec text, for comparison with find_chain: for each
candidate intermediate in the fixed list pdf, png, jpg, check whether direct
handlers exist for (src, mid) and (mid, dst); return the first such two-hop
chain, otherwise none. -/
def chainSpec (m : ConvMap) (src dst : String) : Option (List (String × String)) :=
  match ["pdf", "png", "jpg"].find? (fun mid => hasKey m (src, mid) && hasKey m (mid, dst)) with
  | some mid => some [(src, mid), (mid, dst)]
  | none => none

/-! ## PDF operations and their environment -/

/-- The parts of the outside world the PDF utilities consult: which Python
packages import, which files exist, and the outcome of each external library
call (an exception value when the library raises). -/
structure Env where
  pypdf : Bool
  reportlab : Bool
  fileExists : String → Bool
  handler : Oracle
  splitRes : Except PyErr Unit
  compressRes : Except PyErr Unit
  rotateRes : Except PyErr Unit
  watermarkRes : Except PyErr Unit
  pdfToImagesRes : Except PyErr Unit

def noPypdf : PyErr := .runtimeError "pypdf not installed. Run: pip install pypdf"

/-- merge_pdfs: import check, length check, then per-file existence check in
order while appending; finally the merged output is written.  Library append
and write are modeled as succeeding; the Bool records whether the write was
reached. -/
def merge_pdfs (env : Env) (inputs : List String) (out : String) :
    Except PyErr Unit × Bool :=
  if !env.pypdf then (Except.error noPypdf, false)
  else if inputs.length < 2 then
    (Except.error (.valueError "Need at least 2 files to merge"), false)
  else
    match inputs.find? (fun f => !env.fileExists f) with
    | some f => (Except.error (.fileNotFoundError ("File not found: " ++ f)), false)
    | none => (Except.ok (), true)

def split_pdf (env : Env) (inp outdir : String) : Except PyErr Unit :=
  if !env.pypdf then Except.error noPypdf
  else if !env.fileExists inp then
    Except.error (.fileNotFoundError ("File not found: " ++ inp))
  else env.splitRes

def compress_pdf (env : Env) (inp out : String) : Except PyErr Unit :=
  if !env.pypdf then Except.error noPypdf
  else if !env.fileExists inp then
    Except.error (.fileNotFoundError ("File not found: " ++ inp))
  else env.compressRes

/-- rotate_pdf: after the import and existence checks the degree argument is
normalized exactly as in the source (Python % is Int.emod and Python
floor-division is Int.fdiv for this positive modulus); the returned list is
the rotation actually applied to each page. -/
def rotate_pdf (env : Env) (inp out : String) (deg : Int) (pages : Nat) :
    Except PyErr (List Int) :=
  if !env.pypdf then Except.error noPypdf
  else if !env.fileExists inp then
    Except.error (.fileNotFoundError ("File not found: " ++ inp))
  else
    let d0 := Int.emod deg 360
    let d1 := (Int.fdiv d0 90) * 90
    let d2 := if d1 < 0 then d1 + 360 else d1
    match env.rotateRes with
    | Except.error e => Except.error e
    | Except.ok _ => Except.ok (List.replicate pages d2)

def watermark_pdf (env : Env) (inp out : String) (text : String) : Except PyErr Unit :=
  if !env.pypdf then Except.error noPypdf
  else if !env.reportlab then
    Except.error (.runtimeError "reportlab not installed. Run: pip install reportlab")
  else if !env.fileExists inp then
    Except.error (.fileNotFoundError ("File not found: " ++ inp))
  else env.watermarkRes

/-! ## cli_mode (direct-argument mode) -/

/-- The argparse namespace of cli_mode. -/
structure Args where
  input : Option String
  output : Option String
  merge : Bool
  split : Bool
  compress : Bool
  rotate : Option Int
  watermark : Option String
  batch : Bool
  doctor : Bool

/-- Python truthiness of an optional string (None and the empty string are
falsy). -/
def strTruthy : Option String → Bool
  | none => false
  | some s => !(s == "")

/-- Python truthiness of an optional int (None and 0 are falsy). -/
def intTruthy : Option Int → Bool
  | none => false
  | some n => !(n == 0)

/-- How a cli_mode invocation ends: a process exit code, or an exception
that propagates out of cli_mode uncaught. -/
inductive CliOutcome where
  | exited (code : Nat)
  | raised (e : PyErr)
  deriving DecidableEq, Repr

/-- cli_mode: flag operations are called with no surrounding try, so their
exceptions propagate; the final input/output conversion goes through
convert_file (which catches) and maps False to sys.exit(1).  For the merge
flag the source takes inputs from sys.argv[2:-1] and the output from
sys.argv[-1]; argvTail stands for sys.argv[2:]. -/
def cli_modeWith (m : ConvMap) (env : Env) (args : Args) (argvTail : List String)
    (pages : Nat) : CliOutcome :=
  if args.doctor then .exited 0
  else if args.merge then
    match (merge_pdfs env argvTail.dropLast (argvTail.getLastD "")).1 with
    | Except.error e => .raised e
    | Except.ok _ => .exited 0
  else if args.split then
    let outdir := match args.output with
      | some s => if s = "" then "pages" else s
      | none => "pages"
    match split_pdf env (args.input.getD "") outdir with
    | Except.error e => .raised e
    | Except.ok _ => .exited 0
  else if args.compress then
    match compress_pdf env (args.input.getD "") (args.output.getD "") with
    | Except.error e => .raised e
    | Except.ok _ => .exited 0
  else if intTruthy args.rotate then
    match rotate_pdf env (args.input.getD "") (args.output.getD "") (args.rotate.getD 0) pages with
    | Except.error e => .raised e
    | Except.ok _ => .exited 0
  else if strTruthy args.watermark then
    match watermark_pdf env (args.input.getD "") (args.output.getD "") (args.watermark.getD "") with
    | Except.error e => .raised e
    | Except.ok _ => .exited 0
  else if !strTruthy args.input || !strTruthy args.output then .exited 0
  else if (convert_fileWith m env.handler (args.input.getD "") (args.output.getD "")).ok
  then .exited 0
  else .exited 1

/-! ## The PDF-operations menu loop -/

inductive MenuNext where
  | back
  | again
  deriving DecidableEq, Repr

/-- The interactive answers one iteration of menu_pdf_operations consumes. -/
structure MenuSession where
  choice : String
  mergeFiles : List String
  mergeOut : String
  filePath : String
  outdir : String
  degInput : Option Int
  wmText : String
  overwriteOk : Bool

/-- One iteration of the menu_pdf_operations loop.  Every operation call in
the source sits inside its own try/except that prints the error, so each
branch continues the loop; an Except.error result would mean an exception
escaping the loop. -/
def menu_pdf_iter (env : Env) (s : MenuSession) (pages : Nat) : Except PyErr MenuNext :=
  if s.choice = "0" then Except.ok .back
  else if s.choice = "1" then
    if s.mergeFiles.length < 2 then Except.ok .again
    else
      let out := if ".pdf".toList.isSuffixOf s.mergeOut.toList then s.mergeOut
                 else s.mergeOut ++ ".pdf"
      if s.overwriteOk then
        match (merge_pdfs env s.mergeFiles out).1 with
        | Except.error _ => Except.ok .again
        | Except.ok _ => Except.ok .again
      else Except.ok .again
  else if s.choice = "2" then
    let od := if s.outdir = "" then "pages" else s.outdir
    match split_pdf env s.filePath od with
    | Except.error _ => Except.ok .again
    | Except.ok _ => Except.ok .again
  else if s.choice = "3" then
    if s.overwriteOk then
      match compress_pdf env s.filePath (pyWithSuffix s.filePath "._compressed.pdf") with
      | Except.error _ => Except.ok .again
      | Except.ok _ => Except.ok .again
    else Except.ok .again
  else if s.choice = "4" then
    match s.degInput with
    | none => Except.ok .again
    | some deg =>
      if s.overwriteOk then
        match rotate_pdf env s.filePath
            (pyWithSuffix s.filePath ("._rotated" ++ toString deg ++ ".pdf")) deg pages with
        | Except.error _ => Except.ok .again
        | Except.ok _ => Except.ok .again
      else Except.ok .again
  else if s.choice = "5" then
    if s.wmText = "" then Except.ok .again
    else if s.overwriteOk then
      match watermark_pdf env s.filePath
          (pyWithSuffix s.filePath "._watermarked.pdf") s.wmText with
      | Except.error _ => Except.ok .again
      | Except.ok _ => Except.ok .again
    else Except.ok .again
  else if s.choice = "6" then
    match env.pdfToImagesRes with
    | Except.error _ => Except.ok .again
    | Except.ok _ => Except.ok .again
  else Except.ok .again

/-! ## Program operations as state transformers over the mapping -/

/-- The operations of the program that consult the CONVERTERS mapping. -/
inductive Op where
  | o_dispatch (o : Oracle) (src dst inp out : String)
  | o_find_chain (src dst : String)
  | o_convert (o : Oracle) (inp out : String)
  | o_cli (env : Env) (args : Args) (argvTail : List String) (pages : Nat)

inductive OpResult where
  | r_dispatch (r : DispatchOut)
  | r_chain (c : Option (List (String × String)))
  | r_convert (r : ConvertOut)
  | r_cli (r : CliOutcome)

/-- Run one operation against the current mapping.  The source contains no
assignment, update, or delete on CONVERTERS, so each operation reads the
mapping and leaves it as it was. -/
def runOp (m : ConvMap) : Op → OpResult × ConvMap
  | .o_dispatch o src dst inp out => (.r_dispatch (dispatchWith m o src dst inp out), m)
  | .o_find_chain src dst => (.r_chain (find_chainWith m src dst), m)
  | .o_convert o inp out => (.r_convert (convert_fileWith m o inp out), m)
  | .o_cli env args argvTail pages => (.r_cli (cli_modeWith m env args argvTail pages), m)

/-- The mapping after a whole program run (a sequence of operations). -/
def runOps (m : ConvMap) : List Op → ConvMap
  | [] => m
  | op :: rest => runOps (runOp m op).2 rest

/-- A concrete environment: every package importable, file existence fixed
by the argument, every external library call succeeding. -/
def envAll (ex : Bool) : Env :=
  { pypdf := true, reportlab := true, fileExists := fun _ => ex,
    handler := fun _ _ _ => none, splitRes := Except.ok (),
    compressRes := Except.ok (), rotateRes := Except.ok (),
    watermarkRes := Except.ok (), pdfToImagesRes := Except.ok () }

/-- The argparse namespace for a plain input/output invocation. -/
def plainArgs (inp out : String) : Args :=
  { input := some inp, output := some out, merge := false, split := false,
    compress := false, rotate := none, watermark := none, batch := false,
    doctor := false }

/-- The argparse namespace of a merge-flag invocation. -/
def mergeArgs : Args :=
  { input := none, output := none, merge := true, split := false,
    compress := false, rotate := none, watermark := none, batch := false,
    doctor := false }

/-- The argparse namespace of a split-flag invocation. -/
def splitArgs : Args :=
  { input := some "a.pdf", output := none, merge := false, split := true,
    compress := false, rotate := none, watermark := none, batch := false,
    doctor := false }

/-- The argparse namespace of a compress-flag invocation. -/
def compressArgs : Args :=
  { input := some "a.pdf", output := some "b.pdf", merge := false, split := false,
    compress := true, rotate := none, watermark := none, batch := false,
    doctor := false }

/-- The argparse namespace of a rotate-flag invocation. -/
def rotateArgs : Args :=
  { input := some "a.pdf", output := some "b.pdf", merge := false, split := false,
    compress := false, rotate := some 90, watermark := none, batch := false,
    doctor := false }

/-- The argparse namespace of a watermark-flag invocation. -/
def watermarkArgs : Args :=
  { input := some "a.pdf", output := some "b.pdf", merge := false, split := false,
    compress := false, rotate := none, watermark := some "W", batch := false,
    doctor := false }

/-! ## Character and normalization lemmas -/

theorem toNat_ofNat_valid {n : Nat} (h : n.isValidChar) : (Char.ofNat n).toNat = n := by
  rw [Char.ofNat, dif_pos h]
  rfl

theorem toLower_of_not_upper {c : Char} (h : ¬(c.toNat ≥ 65 ∧ c.toNat ≤ 90)) :
    c.toLower = c := by
  unfold Char.toLower
  rw [if_neg h]

theorem toLower_toNat_of_upper {c : Char} (h : c.toNat ≥ 65 ∧ c.toNat ≤ 90) :
    c.toLower.toNat = c.toNat + 32 := by
  unfold Char.toLower
  rw [if_pos h]
  exact toNat_ofNat_valid (Or.inl (by omega))

theorem toLower_toLower (c : Char) : c.toLower.toLower = c.toLower := by
  by_cases h : c.toNat ≥ 65 ∧ c.toNat ≤ 90
  · have h1 := toLower_toNat_of_upper h
    exact toLower_of_not_upper (by omega)
  · rw [toLower_of_not_upper h, toLower_of_not_upper h]

theorem toUpper_of_not_lower {c : Char} (h : ¬(c.toNat ≥ 97 ∧ c.toNat ≤ 122)) :
    c.toUpper = c := by
  unfold Char.toUpper
  rw [if_neg h]

theorem toLower_toUpper (c : Char) : c.toUpper.toLower = c.toLower := by
  by_cases h : c.toNat ≥ 97 ∧ c.toNat ≤ 122
  · have hu : c.toUpper = Char.ofNat (c.toNat - 32) := by
      unfold Char.toUpper
      rw [if_pos h]
    have hun : c.toUpper.toNat = c.toNat - 32 := by
      rw [hu]
      exact toNat_ofNat_valid (Or.inl (by omega))
    have hlo : c.toUpper.toLower = Char.ofNat (c.toUpper.toNat + 32) := by
      unfold Char.toLower
      rw [if_pos (by omega)]
    have harith : c.toNat - 32 + 32 = c.toNat := by omega
    rw [hlo, hun, harith, Char.ofNat_toNat, toLower_of_not_upper (by omega)]
  · rw [toUpper_of_not_lower h]

theorem eq_dot_of_toLower_eq_dot {c : Char} (h : c.toLower = '.') : c = '.' := by
  by_cases hc : c.toNat ≥ 65 ∧ c.toNat ≤ 90
  · exfalso
    have h1 : c.toLower.toNat = c.toNat + 32 := toLower_toNat_of_upper hc
    rw [h] at h1
    have hdot : ('.').toNat = 46 := rfl
    omega
  · rw [toLower_of_not_upper hc] at h
    exact h

theorem lowerL_idem (l : List Char) : lowerL (lowerL l) = lowerL l := by
  have h : Char.toLower ∘ Char.toLower = Char.toLower := funext toLower_toLower
  simp [lowerL, List.map_map, h]

theorem lowerL_upperL (l : List Char) : lowerL (upperL l) = lowerL l := by
  have h : Char.toLower ∘ Char.toUpper = Char.toLower := funext toLower_toUpper
  simp [lowerL, upperL, List.map_map, h]

theorem mem_takeWhile_pred {p : Char → Bool} :
    ∀ {l : List Char} {c : Char}, c ∈ l.takeWhile p → p c = true := by
  intro l
  induction l with
  | nil => intro c hc; simp [List.takeWhile] at hc
  | cons a l ih =>
    intro c hc
    rw [List.takeWhile_cons] at hc
    by_cases hp : p a
    · rw [if_pos hp] at hc
      rcases List.mem_cons.mp hc with h | h
      · exact h ▸ hp
      · exact ih h
    · rw [if_neg hp] at hc
      simp at hc

theorem mem_pySuffix_tail_ne_dot {name : List Char} {c : Char}
    (h : c ∈ (pySuffixAux name).drop 1) : c ≠ '.' := by
  simp only [pySuffixAux] at h
  split at h
  · simp only [List.drop_succ_cons, List.drop_zero, List.mem_reverse] at h
    have := mem_takeWhile_pred h
    simpa using this
  · simp at h

theorem mem_extL_ne_dot {p : List Char} {c : Char} (h : c ∈ extL p) : c ≠ '.' := by
  unfold extL lowerL pySuffixL at h
  rcases List.mem_map.mp h with ⟨c', hc', rfl⟩
  intro hdot
  exact mem_pySuffix_tail_ne_dot hc' (eq_dot_of_toLower_eq_dot hdot)

theorem lstripDots_of_ne_dot {l : List Char} (h : ∀ c ∈ l, c ≠ '.') :
    lstripDotsL l = l := by
  cases l with
  | nil => rfl
  | cons a l =>
    have ha := h a (List.mem_cons_self a l)
    simp [lstripDotsL, List.dropWhile_cons, ha]

theorem lstripDots_extL (p : List Char) : lstripDotsL (extL p) = extL p :=
  lstripDots_of_ne_dot (fun _ hc => mem_extL_ne_dot hc)

theorem lowerL_extL (p : List Char) : lowerL (extL p) = extL p := by
  unfold extL
  rw [lowerL_idem]

theorem dispatch_norm_extRaw (p : String) : dispatch_norm (extRaw p) = extNorm p := by
  unfold dispatch_norm extNorm extRaw
  rw [show (String.mk (extL p.toList)).toList = extL p.toList from rfl]
  rw [lowerL_extL, lstripDots_extL]

theorem jpegToJpg_ne_jpeg (s : String) : jpegToJpg s ≠ "jpeg" := by
  by_cases h : s = "jpeg" <;> simp [jpegToJpg, h]

theorem dispatch_norm_extNorm (p : String) : dispatch_norm (extNorm p) = extNorm p := by
  by_cases h : extRaw p = "jpeg"
  · have he : extNorm p = "jpg" := by simp [extNorm, jpegToJpg, h]
    rw [he]
    decide
  · have he : extNorm p = extRaw p := by simp [extNorm, jpegToJpg, h]
    rw [he, dispatch_norm_extRaw, he]

/-! ## Lookup and chain lemmas -/

theorem lookup_of_hasKey {m : ConvMap} {k : String × String} (h : hasKey m k = true) :
    ∃ hd, lookupKey m k = some hd := by
  unfold hasKey at h
  cases hl : lookupKey m k with
  | none => rw [hl] at h; simp [Option.isSome] at h
  | some hd => exact ⟨hd, rfl⟩

theorem hasKey_of_lookup {m : ConvMap} {k : String × String} {hd : Handler}
    (h : lookupKey m k = some hd) : hasKey m k = true := by
  unfold hasKey
  rw [h]
  rfl

theorem findChainGo_eq_spec (m : ConvMap) (s d : String)
    (hs : s ≠ "jpeg") (hd : d ≠ "jpeg") :
    ∀ mids : List String, "jpeg" ∉ mids →
      findChainGo m s d mids =
        match mids.find? (fun mid => hasKey m (s, mid) && hasKey m (mid, d)) with
        | some mid => some [(s, mid), (mid, d)]
        | none => none := by
  intro mids hm
  induction mids with
  | nil => rfl
  | cons mid rest ih =>
    have hmid : mid ≠ "jpeg" := fun h => hm (h ▸ List.mem_cons_self mid rest)
    have hrest : "jpeg" ∉ rest := fun h => hm (List.mem_cons_of_mem _ h)
    have hs' : decide (s = "jpeg") = false := by simp [hs]
    have hd' : decide (d = "jpeg") = false := by simp [hd]
    simp only [findChainGo, hs', hd', Bool.false_and, Bool.and_false, Bool.or_false]
    cases hcond : hasKey m (s, mid) && hasKey m (mid, d) with
    | true =>
      simp only [List.find?, hcond]
      simp [if_neg hs, if_neg hd, if_neg hmid]
    | false =>
      simp only [List.find?, hcond]
      simpa using ih hrest

theorem find_chain_eq_chainSpec (m : ConvMap) (s d : String)
    (hs : s ≠ "jpeg") (hd : d ≠ "jpeg") :
    find_chainWith m s d = chainSpec m s d := by
  unfold find_chainWith chainSpec
  exact findChainGo_eq_spec m s d hs hd ["pdf", "png", "jpg"] (by decide)

theorem chainSpec_characterization (m : ConvMap) (s d : String) {c : List (String × String)}
    (h : chainSpec m s d = some c) :
    ∃ mid, mid ∈ ["pdf", "png", "jpg"] ∧ hasKey m (s, mid) = true ∧
      hasKey m (mid, d) = true ∧ c = [(s, mid), (mid, d)] := by
  unfold chainSpec at h
  cases hf : List.find? (fun mid => hasKey m (s, mid) && hasKey m (mid, d)) ["pdf", "png", "jpg"] with
  | none => rw [hf] at h; simp at h
  | some mid =>
    rw [hf] at h
    have hmem := List.mem_of_find?_eq_some hf
    have hpred := List.find?_some hf
    rcases Bool.and_eq_true .. |>.mp hpred with ⟨h1, h2⟩
    exact ⟨mid, hmem, h1, h2, by simpa using h.symm⟩

theorem dispatchWith_lookup {m : ConvMap} (o : Oracle) {src dst : String} (inp out : String)
    {hd : Handler} (hl : lookupKey m (dispatch_norm src, dispatch_norm dst) = some hd) :
    dispatchWith m o src dst inp out =
      { events := [Ev.call hd inp out],
        result := match o hd inp out with
                  | none => Except.ok ()
                  | some e => Except.error e } := by
  simp only [dispatchWith, hl]

/-! ## The claims -/

/-- C1: for formats whose normalized pair has no direct handler in CONVERTERS
(convert_file invokes find_chain on the normalized formats), find_chain returns
exactly the two-hop chain through the first intermediate of the fixed list
pdf, png, jpg for which both (src, mid) and (mid, dst) are CONVERTERS keys
(the chainSpec definition states this from the spec text); it never returns a
chain of more than two steps, and returns none when no such intermediate
exists. -/
theorem C1_find_chain_first_intermediate (src dst : String)
    (h : hasKey CONVERTERS (jpegToJpg src, jpegToJpg dst) = false) :
    find_chainWith CONVERTERS (jpegToJpg src) (jpegToJpg dst)
      = chainSpec CONVERTERS (jpegToJpg src) (jpegToJpg dst)
    ∧ (∀ c, find_chainWith CONVERTERS (jpegToJpg src) (jpegToJpg dst) = some c →
        c.length = 2) := by
  have hs := jpegToJpg_ne_jpeg src
  have hd := jpegToJpg_ne_jpeg dst
  have heq := find_chain_eq_chainSpec CONVERTERS _ _ hs hd
  refine ⟨heq, ?_⟩
  intro c hc
  rw [heq] at hc
  rcases chainSpec_characterization CONVERTERS _ _ hc with ⟨mid, _, _, _, hceq⟩
  rw [hceq]
  rfl

theorem C1_witness :
    hasKey CONVERTERS (jpegToJpg "docx", jpegToJpg "jpg") = false
    ∧ find_chainWith CONVERTERS (jpegToJpg "docx") (jpegToJpg "jpg")
        = chainSpec CONVERTERS (jpegToJpg "docx") (jpegToJpg "jpg")
    ∧ find_chainWith CONVERTERS "docx" "jpg" = some [("docx", "pdf"), ("pdf", "jpg")] :=
  ⟨by decide, (C1_find_chain_first_intermediate "docx" "jpg" (by decide)).1, by decide⟩

/-- C3: when the normalized (source, destination) pair is a CONVERTERS key,
convert_file performs exactly one handler invocation, namely the handler
registered for that key, on the original input and output paths, and issues
no temp-file removal (the event list is the single call); in particular
docx to pdf and pdf to docx each go to their direct handler (see the
witness). -/
theorem C3_direct_handler (o : Oracle) (inp out : String) (hd : Handler)
    (h : lookupKey CONVERTERS (extNorm inp, extNorm out) = some hd) :
    (convert_fileWith CONVERTERS o inp out).events = [Ev.call hd inp out] := by
  have hk : hasKey CONVERTERS (extNorm inp, extNorm out) = true := hasKey_of_lookup h
  have hl : lookupKey CONVERTERS (dispatch_norm (extRaw inp), dispatch_norm (extRaw out))
      = some hd := by
    rw [dispatch_norm_extRaw, dispatch_norm_extRaw]
    exact h
  have hdisp := dispatchWith_lookup o inp out hl
  unfold convert_fileWith convert_fileBody
  simp only [extNorm] at hk
  simp only [hk, if_true, hdisp]
  cases o hd inp out <;> rfl

theorem C3_witness :
    lookupKey CONVERTERS (extNorm "report.docx", extNorm "report.pdf")
        = some Handler.convert_docx_to_pdf
    ∧ (convert_fileWith CONVERTERS (fun _ _ _ => none) "report.docx" "report.pdf").events
        = [Ev.call Handler.convert_docx_to_pdf "report.docx" "report.pdf"]
    ∧ lookupKey CONVERTERS (extNorm "slide.pdf", extNorm "slide.docx")
        = some Handler.convert_pdf_to_docx
    ∧ (convert_fileWith CONVERTERS (fun _ _ _ => none) "slide.pdf" "slide.docx").events
        = [Ev.call Handler.convert_pdf_to_docx "slide.pdf" "slide.docx"] :=
  ⟨by decide, C3_direct_handler _ _ _ _ (by decide), by decide,
   C3_direct_handler _ _ _ _ (by decide)⟩

/-- C4: with neither a direct handler nor a chain, convert_file returns
failure, performs no handler call and no file removal, and its reported
error is the unsupported-conversion ValueError naming both (raw, lowercase)
formats; the heic to png example is the witness. -/
theorem C4_unsupported (o : Oracle) (inp out : String)
    (h1 : hasKey CONVERTERS (extNorm inp, extNorm out) = false)
    (h2 : find_chainWith CONVERTERS (extNorm inp) (extNorm out) = none) :
    convert_fileWith CONVERTERS o inp out =
      ⟨false, [],
       some ("Unsupported conversion: " ++ extRaw inp ++ " -> " ++ extRaw out)⟩ := by
  unfold convert_fileWith convert_fileBody
  simp only [extNorm] at h1 h2
  simp only [h1, h2, Bool.false_eq_true, if_false]
  rfl

theorem dispatch_norm_fixed_mid {mid : String} (h : mid ∈ ["pdf", "png", "jpg"]) :
    dispatch_norm mid = mid := by
  simp only [List.mem_cons, List.not_mem_nil, or_false] at h
  rcases h with rfl | rfl | rfl <;> decide

theorem extNorm_ne_jpeg (p : String) : extNorm p ≠ "jpeg" := jpegToJpg_ne_jpeg (extRaw p)

/-- Evaluation of the chain loop on a two-step chain: the single temp path is
recorded before the first dispatch, the second step reads it, and the temp
list is the same on the failure and success outcomes. -/
theorem runChainGo_pair (m : ConvMap) (o : Oracle) (inp out s mid d : String)
    (h1 h2 : Handler)
    (hl1 : lookupKey m (dispatch_norm s, dispatch_norm mid) = some h1)
    (hl2 : lookupKey m (dispatch_norm mid, dispatch_norm d) = some h2) :
    runChainGo m o inp out [(s, mid), (mid, d)] 0 inp [] =
      match o h1 inp (tempName inp 0 mid) with
      | some e =>
          (Except.error e, [Ev.call h1 inp (tempName inp 0 mid)], [tempName inp 0 mid])
      | none =>
          match o h2 (tempName inp 0 mid) out with
          | some e =>
              (Except.error e,
               [Ev.call h1 inp (tempName inp 0 mid), Ev.call h2 (tempName inp 0 mid) out],
               [tempName inp 0 mid])
          | none =>
              (Except.ok (),
               [Ev.call h1 inp (tempName inp 0 mid), Ev.call h2 (tempName inp 0 mid) out],
               [tempName inp 0 mid]) := by
  simp only [runChainGo, List.isEmpty, Bool.false_eq_true, if_false, if_true,
    List.nil_append,
    dispatchWith_lookup o inp (tempName inp 0 mid) hl1,
    dispatchWith_lookup o (tempName inp 0 mid) out hl2]
  cases o h1 inp (tempName inp 0 mid) with
  | some e => rfl
  | none =>
    cases o h2 (tempName inp 0 mid) out with
    | some e => rfl
    | none => rfl

/-- C2: when convert_file goes through a two-hop chain, exactly one
intermediate temporary file is used: its path is the deterministic
tempName inp 0 mid (Path(inp).with_suffix of the step index and
intermediate format), it is the output of step one and the input of step
two, and safe_remove of that single path is the final event on every exit
path, both when the chain succeeds and when either step raises (the event
list is one of the two shapes below for every oracle). -/
theorem C2_chain_single_temp (o : Oracle) (inp out : String)
    (hdir : hasKey CONVERTERS (extNorm inp, extNorm out) = false)
    (hch : find_chainWith CONVERTERS (extNorm inp) (extNorm out) ≠ none) :
    ∃ mid h1 h2,
      lookupKey CONVERTERS (extNorm inp, mid) = some h1 ∧
      lookupKey CONVERTERS (mid, extNorm out) = some h2 ∧
      ((convert_fileWith CONVERTERS o inp out).events
          = [Ev.call h1 inp (tempName inp 0 mid), Ev.remove (tempName inp 0 mid)] ∨
       (convert_fileWith CONVERTERS o inp out).events
          = [Ev.call h1 inp (tempName inp 0 mid),
             Ev.call h2 (tempName inp 0 mid) out, Ev.remove (tempName inp 0 mid)]) := by
  cases hc : find_chainWith CONVERTERS (extNorm inp) (extNorm out) with
  | none => exact absurd hc hch
  | some c =>
    rw [find_chain_eq_chainSpec CONVERTERS _ _ (extNorm_ne_jpeg inp) (extNorm_ne_jpeg out)] at hc
    rcases chainSpec_characterization CONVERTERS _ _ hc with ⟨mid, hmem, hk1, hk2, hceq⟩
    rcases lookup_of_hasKey hk1 with ⟨h1, hl1⟩
    rcases lookup_of_hasKey hk2 with ⟨h2, hl2⟩
    refine ⟨mid, h1, h2, hl1, hl2, ?_⟩
    have hl1' : lookupKey CONVERTERS (dispatch_norm (extNorm inp), dispatch_norm mid)
        = some h1 := by
      rw [dispatch_norm_extNorm, dispatch_norm_fixed_mid hmem]
      exact hl1
    have hl2' : lookupKey CONVERTERS (dispatch_norm mid, dispatch_norm (extNorm out))
        = some h2 := by
      rw [dispatch_norm_extNorm, dispatch_norm_fixed_mid hmem]
      exact hl2
    have hrun := runChainGo_pair CONVERTERS o inp out (extNorm inp) mid (extNorm out)
      h1 h2 hl1' hl2'
    have hfc : find_chainWith CONVERTERS (extNorm inp) (extNorm out)
        = some [(extNorm inp, mid), (mid, extNorm out)] := by
      rw [find_chain_eq_chainSpec CONVERTERS _ _ (extNorm_ne_jpeg inp) (extNorm_ne_jpeg out),
        hc, hceq]
    unfold convert_fileWith convert_fileBody
    simp only [extNorm] at hdir hfc hrun
    simp only [hdir, Bool.false_eq_true, if_false, hfc, hrun]
    cases o h1 inp (tempName inp 0 mid) with
    | some e => simp
    | none =>
      cases o h2 (tempName inp 0 mid) out with
      | some e => simp
      | none => simp

theorem C2_witness :
    (hasKey CONVERTERS (extNorm "doc.docx", extNorm "doc.jpg") = false
      ∧ find_chainWith CONVERTERS (extNorm "doc.docx") (extNorm "doc.jpg") ≠ none)
    ∧ ∃ mid h1 h2,
        lookupKey CONVERTERS (extNorm "doc.docx", mid) = some h1 ∧
        lookupKey CONVERTERS (mid, extNorm "doc.jpg") = some h2 ∧
        (((convert_fileWith CONVERTERS (fun _ _ _ => none) "doc.docx" "doc.jpg").events
            = [Ev.call h1 "doc.docx" (tempName "doc.docx" 0 mid),
               Ev.remove (tempName "doc.docx" 0 mid)]) ∨
         ((convert_fileWith CONVERTERS (fun _ _ _ => none) "doc.docx" "doc.jpg").events
            = [Ev.call h1 "doc.docx" (tempName "doc.docx" 0 mid),
               Ev.call h2 (tempName "doc.docx" 0 mid) "doc.jpg",
               Ev.remove (tempName "doc.docx" 0 mid)])) :=
  ⟨⟨by decide, by decide⟩,
   C2_chain_single_temp (fun _ _ _ => none) "doc.docx" "doc.jpg" (by decide) (by decide)⟩

theorem C4_witness :
    convert_fileWith CONVERTERS (fun _ _ _ => none) "photo.heic" "photo.png" =
      ⟨false, [], some "Unsupported conversion: heic -> png"⟩ :=
  C4_unsupported (fun _ _ _ => none) "photo.heic" "photo.png" (by decide) (by decide)

theorem callHandlers_append (a b : List Ev) :
    callHandlers (a ++ b) = callHandlers a ++ callHandlers b := by
  simp [callHandlers, List.filterMap_append]

theorem callHandlers_removes (l : List String) : callHandlers (l.map Ev.remove) = [] := by
  simp [callHandlers, List.filterMap_eq_nil_iff]

theorem callHandlers_call (h : Handler) (a b : String) (l : List Ev) :
    callHandlers (Ev.call h a b :: l) = h :: callHandlers l := by
  simp [callHandlers, List.filterMap_cons]

theorem dot_append_toList (s : String) : ("." ++ s).toList = '.' :: s.toList := by
  cases s with
  | mk data => rfl

theorem dispatch_norm_upper (s : String) : dispatch_norm (upperStr s) = dispatch_norm s := by
  unfold dispatch_norm upperStr
  rw [show (String.mk (upperL s.toList)).toList = upperL s.toList from rfl, lowerL_upperL]

theorem dispatch_norm_lower (s : String) : dispatch_norm (lowerStr s) = dispatch_norm s := by
  unfold dispatch_norm lowerStr
  rw [show (String.mk (lowerL s.toList)).toList = lowerL s.toList from rfl, lowerL_idem]

theorem dispatch_norm_dot (s : String) : dispatch_norm ("." ++ s) = dispatch_norm s := by
  unfold dispatch_norm
  rw [dot_append_toList]
  simp only [lowerL, List.map_cons, show Char.toLower '.' = '.' from rfl]
  simp [lstripDotsL, List.dropWhile_cons]

/-- All chain-loop observations that matter for format lookup (the outcome
and the handlers invoked) are unchanged when the paths change, provided the
oracle outcome depends only on the handler. -/
theorem runChainGo_path_independent (m : ConvMap) (o : Oracle)
    (hpath : ∀ h p q p' q', o h p q = o h p' q') :
    ∀ (chain : List (String × String)) (i i' : Nat) (cur cur' : String)
      (temps temps' : List String) (inp out inp' out' : String),
      (runChainGo m o inp out chain i cur temps).1
        = (runChainGo m o inp' out' chain i' cur' temps').1
      ∧ callHandlers (runChainGo m o inp out chain i cur temps).2.1
        = callHandlers (runChainGo m o inp' out' chain i' cur' temps').2.1 := by
  intro chain
  induction chain with
  | nil => intros; exact ⟨rfl, rfl⟩
  | cons p rest ih =>
    rcases p with ⟨f, t⟩
    intro i i' cur cur' temps temps' inp out inp' out'
    simp only [runChainGo]
    cases hl : lookupKey m (dispatch_norm f, dispatch_norm t) with
    | none => simp [dispatchWith, hl]
    | some h =>
      simp only [dispatchWith, hl]
      have hoo := hpath h cur (if rest.isEmpty then out else tempName inp i t)
        cur' (if rest.isEmpty then out' else tempName inp' i' t)
      rw [hoo]
      cases ho : o h cur' (if rest.isEmpty then out' else tempName inp' i' t) with
      | some e =>
        dsimp only
        exact ⟨rfl, by simp [callHandlers_call]⟩
      | none =>
        dsimp only
        constructor
        · exact (ih _ _ _ _ _ _ _ _ _ _).1
        · simp only [callHandlers_append, callHandlers_call]
          rw [(ih _ _ _ _ _ _ _ _ _ _).2]

/-- The handlers convert_file invokes and its success flag are a function of
the normalized extensions alone, for oracles whose outcome depends only on
the handler. -/
theorem convert_route_invariance (m : ConvMap) (o : Oracle)
    (hpath : ∀ h p q p' q', o h p q = o h p' q')
    (inp out inp' out' : String)
    (he1 : extNorm inp = extNorm inp') (he2 : extNorm out = extNorm out') :
    callHandlers (convert_fileWith m o inp out).events
        = callHandlers (convert_fileWith m o inp' out').events
    ∧ (convert_fileWith m o inp out).ok = (convert_fileWith m o inp' out').ok := by
  simp only [extNorm] at he1 he2
  simp only [convert_fileWith, convert_fileBody]
  rw [he1, he2]
  cases hk : hasKey m (jpegToJpg (extRaw inp'), jpegToJpg (extRaw out')) with
  | true =>
    simp only [hk, if_true]
    obtain ⟨hd, hld⟩ := lookup_of_hasKey hk
    have hldL : lookupKey m (dispatch_norm (extRaw inp), dispatch_norm (extRaw out))
        = some hd := by
      rw [dispatch_norm_extRaw, dispatch_norm_extRaw]
      simp only [extNorm]
      rw [he1, he2]
      exact hld
    have hldR : lookupKey m (dispatch_norm (extRaw inp'), dispatch_norm (extRaw out'))
        = some hd := by
      rw [dispatch_norm_extRaw, dispatch_norm_extRaw]
      simp only [extNorm]
      exact hld
    rw [dispatchWith_lookup o inp out hldL, dispatchWith_lookup o inp' out' hldR,
      hpath hd inp out inp' out']
    cases o hd inp' out' with
    | some e =>
      dsimp only
      exact ⟨by simp [callHandlers_call], rfl⟩
    | none =>
      dsimp only
      exact ⟨by simp [callHandlers_call], rfl⟩
  | false =>
    simp only [hk, Bool.false_eq_true, if_false]
    cases hf : find_chainWith m (jpegToJpg (extRaw inp')) (jpegToJpg (extRaw out')) with
    | none =>
      dsimp only
      exact ⟨rfl, rfl⟩
    | some chain =>
      rcases runChainGo_path_independent m o hpath chain 0 0 inp inp' [] []
        inp out inp' out' with ⟨hres, hev⟩
      cases hr : (runChainGo m o inp' out' chain 0 inp' []).1 with
      | ok u =>
        dsimp only
        rw [hres, hr]
        dsimp only
        refine ⟨?_, rfl⟩
        simp only [callHandlers_append, callHandlers_removes, List.append_nil]
        exact hev
      | error e =>
        dsimp only
        rw [hres, hr]
        dsimp only
        refine ⟨?_, rfl⟩
        simp only [callHandlers_append, callHandlers_removes, List.append_nil]
        exact hev

/-- C5: format lookup is invariant under extension normalization.  The
normalization dispatch applies before every lookup (dispatch_norm) ignores
case (upper or lower), ignores leading dots, and maps jpeg to jpg; dispatch
itself is a function of the normalized pair; and convert_file invokes the
same handlers with the same outcome on any two path pairs whose normalized
extensions agree (for handler outcomes that do not depend on the paths). -/
theorem C5_lookup_normalization_invariant :
    (∀ s : String, dispatch_norm (upperStr s) = dispatch_norm s)
    ∧ (∀ s : String, dispatch_norm (lowerStr s) = dispatch_norm s)
    ∧ (∀ s : String, dispatch_norm ("." ++ s) = dispatch_norm s)
    ∧ dispatch_norm "jpeg" = "jpg" ∧ dispatch_norm "jpg" = "jpg"
    ∧ (∀ (m : ConvMap) (o : Oracle) (src dst src' dst' inp out : String),
        dispatch_norm src = dispatch_norm src' →
        dispatch_norm dst = dispatch_norm dst' →
        dispatchWith m o src dst inp out = dispatchWith m o src' dst' inp out)
    ∧ (∀ (m : ConvMap) (o : Oracle),
        (∀ h p q p' q', o h p q = o h p' q') →
        ∀ inp out inp' out' : String,
        extNorm inp = extNorm inp' → extNorm out = extNorm out' →
        callHandlers (convert_fileWith m o inp out).events
            = callHandlers (convert_fileWith m o inp' out').events
        ∧ (convert_fileWith m o inp out).ok = (convert_fileWith m o inp' out').ok) := by
  refine ⟨dispatch_norm_upper, dispatch_norm_lower, dispatch_norm_dot,
    by decide, by decide, ?_, ?_⟩
  · intro m o src dst src' dst' inp out h1 h2
    unfold dispatchWith
    rw [h1, h2]
  · intro m o hpath inp out inp' out' he1 he2
    exact convert_route_invariance m o hpath inp out inp' out' he1 he2

theorem C5_witness :
    dispatch_norm (upperStr "jpeg") = dispatch_norm ("." ++ "jpg")
    ∧ (callHandlers (convert_fileWith CONVERTERS (fun _ _ _ => none)
          "photo.JPEG" "photo.pdf").events
        = callHandlers (convert_fileWith CONVERTERS (fun _ _ _ => none)
          "photo.jpg" "photo.pdf").events
      ∧ (convert_fileWith CONVERTERS (fun _ _ _ => none) "photo.JPEG" "photo.pdf").ok
        = (convert_fileWith CONVERTERS (fun _ _ _ => none) "photo.jpg" "photo.pdf").ok) := by
  constructor
  · rw [C5_lookup_normalization_invariant.1 "jpeg",
      C5_lookup_normalization_invariant.2.2.1 "jpg"]
    decide
  · exact C5_lookup_normalization_invariant.2.2.2.2.2.2 CONVERTERS
      (fun _ _ _ => none) (fun _ _ _ _ _ => rfl)
      "photo.JPEG" "photo.pdf" "photo.jpg" "photo.pdf" (by decide) (by decide)

/-- C6 fails on the code as stated: in direct-argument mode the merge flag
calls merge_pdfs with no surrounding try, so the ValueError raised for a
single-file merge propagates uncaught out of cli_mode (the claim asserts it
would not propagate). -/
theorem C6_counterexample :
    cli_modeWith CONVERTERS (envAll true) mergeArgs ["a.pdf", "out.pdf"] 0
      = CliOutcome.raised (PyErr.valueError "Need at least 2 files to merge") := by
  decide

/-- C6 (amended): every exception inside the body of convert_file is caught
at that boundary, converted to its readable message, and reported through
the False result (first two conjuncts); every error in a PDF operation
invoked from the interactive PDF menu is caught by the per-operation
try/except, so no error terminates the menu loop (third conjunct); however,
an exception raised by a flag-selected operation in direct-argument mode
propagates uncaught out of cli_mode, shown for each of the five flags:
merge, split, compress, rotate, watermark (fourth to eighth conjuncts). -/
theorem C6_error_boundaries :
    (∀ (m : ConvMap) (o : Oracle) (inp out : String),
      (convert_fileBody m o inp out).2 = Except.ok () →
        convert_fileWith m o inp out = ⟨true, (convert_fileBody m o inp out).1, none⟩)
    ∧ (∀ (m : ConvMap) (o : Oracle) (inp out : String) (e : PyErr),
      (convert_fileBody m o inp out).2 = Except.error e →
        convert_fileWith m o inp out
          = ⟨false, (convert_fileBody m o inp out).1, some e.text⟩)
    ∧ (∀ (env : Env) (s : MenuSession) (pages : Nat),
        ∃ nxt, menu_pdf_iter env s pages = Except.ok nxt)
    ∧ (∀ (m : ConvMap) (env : Env) (args : Args) (argvTail : List String)
        (pages : Nat) (e : PyErr),
        args.doctor = false → args.merge = true →
        (merge_pdfs env argvTail.dropLast (argvTail.getLastD "")).1 = Except.error e →
        cli_modeWith m env args argvTail pages = CliOutcome.raised e)
    ∧ (∀ (m : ConvMap) (env : Env) (args : Args) (argvTail : List String)
        (pages : Nat) (e : PyErr),
        args.doctor = false → args.merge = false → args.split = true →
        split_pdf env (args.input.getD "")
          (match args.output with
            | some s => if s = "" then "pages" else s
            | none => "pages") = Except.error e →
        cli_modeWith m env args argvTail pages = CliOutcome.raised e)
    ∧ (∀ (m : ConvMap) (env : Env) (args : Args) (argvTail : List String)
        (pages : Nat) (e : PyErr),
        args.doctor = false → args.merge = false → args.split = false →
        args.compress = true →
        compress_pdf env (args.input.getD "") (args.output.getD "") = Except.error e →
        cli_modeWith m env args argvTail pages = CliOutcome.raised e)
    ∧ (∀ (m : ConvMap) (env : Env) (args : Args) (argvTail : List String)
        (pages : Nat) (e : PyErr),
        args.doctor = false → args.merge = false → args.split = false →
        args.compress = false → intTruthy args.rotate = true →
        rotate_pdf env (args.input.getD "") (args.output.getD "") (args.rotate.getD 0) pages
          = Except.error e →
        cli_modeWith m env args argvTail pages = CliOutcome.raised e)
    ∧ (∀ (m : ConvMap) (env : Env) (args : Args) (argvTail : List String)
        (pages : Nat) (e : PyErr),
        args.doctor = false → args.merge = false → args.split = false →
        args.compress = false → intTruthy args.rotate = false →
        strTruthy args.watermark = true →
        watermark_pdf env (args.input.getD "") (args.output.getD "") (args.watermark.getD "")
          = Except.error e →
        cli_modeWith m env args argvTail pages = CliOutcome.raised e) := by
  refine ⟨?_, ?_, ?_, ?_, ?_, ?_, ?_, ?_⟩
  · intro m o inp out h
    simp only [convert_fileWith]
    rw [h]
  · intro m o inp out e h
    simp only [convert_fileWith]
    rw [h]
  · intro env s pages
    simp only [menu_pdf_iter]
    repeat' split
    all_goals exact ⟨_, rfl⟩
  · intro m env args argvTail pages e hdoc hmer hres
    unfold cli_modeWith
    rw [hdoc, hmer]
    simp only [Bool.false_eq_true, if_false, if_true, hres]
  · intro m env args argvTail pages e hdoc hmer hspl hres
    unfold cli_modeWith
    rw [hdoc, hmer, hspl]
    simp only [Bool.false_eq_true, if_false, if_true, hres]
  · intro m env args argvTail pages e hdoc hmer hspl hcmp hres
    unfold cli_modeWith
    rw [hdoc, hmer, hspl, hcmp]
    simp only [Bool.false_eq_true, if_false, if_true, hres]
  · intro m env args argvTail pages e hdoc hmer hspl hcmp hrot hres
    unfold cli_modeWith
    rw [hdoc, hmer, hspl, hcmp, hrot]
    simp only [Bool.false_eq_true, if_false, if_true, hres]
  · intro m env args argvTail pages e hdoc hmer hspl hcmp hrot hwm hres
    unfold cli_modeWith
    rw [hdoc, hmer, hspl, hcmp, hrot, hwm]
    simp only [Bool.false_eq_true, if_false, if_true, hres]

theorem C6_witness :
    ((convert_fileBody CONVERTERS (fun _ _ _ => some (PyErr.runtimeError "boom"))
        "a.docx" "a.pdf").2 = Except.error (PyErr.runtimeError "boom"))
    ∧ convert_fileWith CONVERTERS (fun _ _ _ => some (PyErr.runtimeError "boom"))
        "a.docx" "a.pdf"
        = ⟨false, [Ev.call Handler.convert_docx_to_pdf "a.docx" "a.pdf"], some "boom"⟩
    ∧ cli_modeWith CONVERTERS (envAll true) mergeArgs ["x.pdf"] 0
        = CliOutcome.raised (PyErr.valueError "Need at least 2 files to merge")
    ∧ cli_modeWith CONVERTERS (envAll false) splitArgs [] 0
        = CliOutcome.raised (PyErr.fileNotFoundError "File not found: a.pdf")
    ∧ cli_modeWith CONVERTERS (envAll false) compressArgs [] 0
        = CliOutcome.raised (PyErr.fileNotFoundError "File not found: a.pdf")
    ∧ cli_modeWith CONVERTERS (envAll false) rotateArgs [] 0
        = CliOutcome.raised (PyErr.fileNotFoundError "File not found: a.pdf")
    ∧ cli_modeWith CONVERTERS (envAll false) watermarkArgs [] 0
        = CliOutcome.raised (PyErr.fileNotFoundError "File not found: a.pdf") := by
  refine ⟨rfl, ?_, ?_, ?_, ?_, ?_, ?_⟩
  · have h := C6_error_boundaries.2.1 CONVERTERS
      (fun _ _ _ => some (PyErr.runtimeError "boom")) "a.docx" "a.pdf"
      (PyErr.runtimeError "boom") rfl
    rw [h]
    decide
  · exact C6_error_boundaries.2.2.2.1 CONVERTERS (envAll true) mergeArgs ["x.pdf"] 0
      (PyErr.valueError "Need at least 2 files to merge") rfl rfl rfl
  · exact C6_error_boundaries.2.2.2.2.1 CONVERTERS (envAll false) splitArgs [] 0
      (PyErr.fileNotFoundError "File not found: a.pdf") rfl rfl rfl rfl
  · exact C6_error_boundaries.2.2.2.2.2.1 CONVERTERS (envAll false) compressArgs [] 0
      (PyErr.fileNotFoundError "File not found: a.pdf") rfl rfl rfl rfl rfl
  · exact C6_error_boundaries.2.2.2.2.2.2.1 CONVERTERS (envAll false) rotateArgs [] 0
      (PyErr.fileNotFoundError "File not found: a.pdf") rfl rfl rfl rfl (by decide) rfl
  · exact C6_error_boundaries.2.2.2.2.2.2.2 CONVERTERS (envAll false) watermarkArgs [] 0
      (PyErr.fileNotFoundError "File not found: a.pdf") rfl rfl rfl rfl (by decide)
      (by decide) rfl

/-- C7: in direct-argument mode with an input file and an output file and no
operation flags, the process exit code is 0 exactly when convert_file
succeeds and 1 when it fails. -/
theorem C7_exit_codes (m : ConvMap) (env : Env) (argvTail : List String) (pages : Nat)
    (inp out : String) (h1 : inp ≠ "") (h2 : out ≠ "") :
    cli_modeWith m env (plainArgs inp out) argvTail pages
      = CliOutcome.exited (if (convert_fileWith m env.handler inp out).ok then 0 else 1) := by
  have hs1 : (inp == "") = false := by simp [h1]
  have hs2 : (out == "") = false := by simp [h2]
  unfold cli_modeWith plainArgs
  simp only [strTruthy, intTruthy, hs1, hs2, Option.getD_some, Bool.not_false,
    Bool.not_true, Bool.false_eq_true, if_false, Bool.or_self, if_true]
  split
  next hok => simp [hok]
  next hok => simp [hok]

theorem C7_witness :
    cli_modeWith CONVERTERS (envAll true) (plainArgs "a.docx" "a.pdf") [] 0
      = CliOutcome.exited 0 := by
  rw [C7_exit_codes CONVERTERS (envAll true) [] 0 "a.docx" "a.pdf"
    (by decide) (by decide)]
  decide

theorem runOp_preserves (m : ConvMap) (op : Op) : (runOp m op).2 = m := by
  cases op <;> rfl

/-- C8: the CONVERTERS mapping is the fixed table built at module load; no
operation of the program (dispatch, find_chain, convert_file, cli_mode)
adds, removes, or replaces an entry, so after any sequence of operations the
mapping, and hence every lookup, is unchanged. -/
theorem C8_converters_never_mutated :
    (∀ ops : List Op, runOps CONVERTERS ops = CONVERTERS)
    ∧ (∀ (ops : List Op) (k : String × String),
        lookupKey (runOps CONVERTERS ops) k = lookupKey CONVERTERS k) := by
  have hrun : ∀ (ops : List Op) (m : ConvMap), runOps m ops = m := by
    intro ops
    induction ops with
    | nil => intro m; rfl
    | cons op rest ih =>
      intro m
      simp only [runOps, runOp_preserves]
      exact ih m
  exact ⟨fun ops => hrun ops CONVERTERS,
    fun ops k => by rw [hrun ops CONVERTERS]⟩

/-- C9: rotate_pdf normalizes the degree argument to
((deg mod 360) floor-div 90) * 90 with the non-negative (Python) modulo, so
the rotation applied to every page is one of 0, 90, 180, 270, for negative
and out-of-range inputs alike (the deg < 0 correction branch never fires). -/
theorem C9_rotate_normalized (env : Env) (inp out : String) (deg : Int) (pages : Nat)
    (l : List Int) (h : rotate_pdf env inp out deg pages = Except.ok l) :
    ∀ r ∈ l, r = (Int.emod deg 360).fdiv 90 * 90
      ∧ (r = 0 ∨ r = 90 ∨ r = 180 ∨ r = 270) := by
  intro r hr
  simp only [rotate_pdf] at h
  split at h
  · exact absurd h (by simp)
  · split at h
    · exact absurd h (by simp)
    · cases hres : env.rotateRes with
      | error e =>
        rw [hres] at h
        exact absurd h (by simp)
      | ok u =>
        rw [hres] at h
        simp only [Except.ok.injEq] at h
        have hrd := List.eq_of_mem_replicate (h ▸ hr)
        have h0 : 0 ≤ Int.emod deg 360 := Int.emod_nonneg deg (by norm_num)
        have h360 : Int.emod deg 360 < 360 := Int.emod_lt_of_pos deg (by norm_num)
        have hfd : Int.fdiv (Int.emod deg 360) 90 = Int.emod deg 360 / 90 :=
          Int.fdiv_eq_ediv _ (by norm_num)
        rw [hrd, hfd]
        rw [if_neg (by omega)]
        constructor
        · rfl
        · omega

theorem C9_witness :
    rotate_pdf (envAll true) "a.pdf" "b.pdf" (-90) 1 = Except.ok [270]
    ∧ ((270 : Int) = (Int.emod (-90) 360).fdiv 90 * 90
       ∧ ((270 : Int) = 0 ∨ (270 : Int) = 90 ∨ (270 : Int) = 180 ∨ (270 : Int) = 270)) :=
  ⟨by decide,
   C9_rotate_normalized (envAll true) "a.pdf" "b.pdf" (-90) 1 [270] (by decide)
     270 (by decide)⟩

/-- C10: merge_pdfs raises on every input list shorter than two paths, and
(given pypdf importable and at least two inputs, so that the earlier checks
do not fire first) raises FileNotFoundError for the first listed input that
does not exist; in both cases the merged output is not written (the Bool
component is false). -/
theorem C10_merge_validation (env : Env) (inputs : List String) (out : String) :
    (inputs.length < 2 →
      ∃ e, merge_pdfs env inputs out = (Except.error e, false))
    ∧ (env.pypdf = true → 2 ≤ inputs.length →
       (∃ f ∈ inputs, env.fileExists f = false) →
       ∃ g ∈ inputs, env.fileExists g = false ∧
         merge_pdfs env inputs out
           = (Except.error (.fileNotFoundError ("File not found: " ++ g)), false)) := by
  constructor
  · intro hlen
    unfold merge_pdfs
    cases hp : env.pypdf with
    | false => exact ⟨noPypdf, by simp [hp]⟩
    | true =>
      exact ⟨.valueError "Need at least 2 files to merge", by simp [hp, hlen]⟩
  · rintro hp hlen ⟨f, hf, hne⟩
    unfold merge_pdfs
    simp only [hp, Bool.not_true, Bool.false_eq_true, if_false]
    rw [if_neg (by omega)]
    cases hfind : inputs.find? (fun g => !env.fileExists g) with
    | none =>
      exfalso
      have hall := List.find?_eq_none.mp hfind f hf
      simp [hne] at hall
    | some g =>
      have hmem := List.mem_of_find?_eq_some hfind
      have hpred := List.find?_some hfind
      simp only [Bool.not_eq_true'] at hpred
      exact ⟨g, hmem, hpred, rfl⟩

theorem C10_witness :
    (∃ e, merge_pdfs (envAll false) ["a.pdf"] "out.pdf" = (Except.error e, false))
    ∧ ∃ g ∈ ["a.pdf", "b.pdf"], (envAll false).fileExists g = false ∧
        merge_pdfs (envAll false) ["a.pdf", "b.pdf"] "out.pdf"
          = (Except.error (.fileNotFoundError ("File not found: " ++ g)), false) :=
  ⟨(C10_merge_validation (envAll false) ["a.pdf"] "out.pdf").1 (by decide),
   (C10_merge_validation (envAll false) ["a.pdf", "b.pdf"] "out.pdf").2 rfl (by decide)
     ⟨"a.pdf", by decide, rfl⟩⟩

end Convctl
